import Mathlib

/-
Verification of the procrastinate job-manager contract (repository
katlyn/procrastinate).

The repository ships the legacy `cabbage/postgres.py` client and the
integration tests `tests/integration/test_manager.py` for the job manager.
The SQL procedures themselves (defer_job, fetch_job, finish_job, retry_job,
get_stalled_jobs, delete_old_jobs) are not among the staged files, so they
are modelled here from the specification, adjusted only where the
repository's own integration tests pin the observable behaviour (those
adjustments are named in the doc comments).

Timestamps are modelled as integers (seconds); `now` is passed explicitly.
Rows are lists of records; the serial primary key is a counter in the state.
-/

/-- Equality on `Except` results is decidable when it is on both components;
used to evaluate the operations at concrete inputs. -/
instance {ε α : Type} [DecidableEq ε] [DecidableEq α] : DecidableEq (Except ε α) :=
  fun x y =>
    match x, y with
    | Except.ok a, Except.ok b =>
        if h : a = b then isTrue (by rw [h])
        else isFalse (by intro he; cases he; exact h rfl)
    | Except.error a, Except.error b =>
        if h : a = b then isTrue (by rw [h])
        else isFalse (by intro he; cases he; exact h rfl)
    | Except.ok _, Except.error _ => isFalse (by intro he; cases he)
    | Except.error _, Except.ok _ => isFalse (by intro he; cases he)

namespace Procrastinate

/-- The job status enumeration `procrastinate_job_status`. -/
inductive Status where
  | todo
  | doing
  | succeeded
  | failed
deriving DecidableEq

/-- The event type enumeration `procrastinate_job_event_type` (the members the
claims need). -/
inductive EventType where
  | deferred
  | started
  | deferred_for_retry
  | failed
  | succeeded
  | cancelled
  | scheduled
deriving DecidableEq

/-- A row of `procrastinate_jobs`. `args` is the opaque JSON payload, carried
as a string and never inspected by the core. -/
structure Job where
  id : Nat
  queue_name : String
  task_name : String
  lock : Option String
  queueing_lock : Option String
  args : String
  status : Status
  scheduled_at : Option Int
  attempts : Nat
deriving DecidableEq

/-- A row of `procrastinate_events`. -/
structure Event where
  job_id : Nat
  type : EventType
  at_time : Int
deriving DecidableEq

/-- The database state: both tables plus the serial id counter. -/
structure DB where
  jobs : List Job
  events : List Event
  nextId : Nat
deriving DecidableEq

/-- A database-level error: either a condition raised by a procedure
(psycopg2 RaiseException) or a unique-constraint violation carrying the
violated constraint's name. -/
inductive DBError where
  | raised (msg : String)
  | uniqueViolation (constraint_name : String)
deriving DecidableEq

/-- The manager's typed error hierarchy (spec section 7): `AlreadyEnqueued`
wraps the unique violation on the queueing-lock index, `UniqueViolation` any
other unique violation, `ConnectorException` every other database error; each
keeps the underlying cause. -/
inductive ManagerError where
  | alreadyEnqueued (cause : DBError)
  | uniqueViolationWrapped (cause : DBError)
  | connectorException (cause : DBError)
deriving DecidableEq

/-- The name of the partial unique index on `queueing_lock` over `todo` rows. -/
def queueingLockIdx : String := "procrastinate_jobs_queueing_lock_idx"

/-- The condition raised by `finish_job` on a bad end status. -/
def badEndStatusMsg : String :=
  "End status should be either \"succeeded\" or \"failed\""

/-- The condition raised by `finish_job` when the job row is absent or in a
status other than doing/todo. -/
def finishNotFoundMsg (job_id : Nat) : String :=
  "Job with id " ++ toString job_id ++
    " was not found or not in \"doing\" or \"todo\" status"

/-- The condition raised by `retry_job` when the job row is absent or not in
doing status. -/
def retryNotFoundMsg (job_id : Nat) : String :=
  "Job with id " ++ toString job_id ++ " was not found or not in \"doing\" status"

/-- Modelled from the spec: the error mapping of the Job Manager facade
(section 7 Propagation), whose Python module is not in src/. A unique
violation on `procrastinate_jobs_queueing_lock_idx` maps to AlreadyEnqueued,
any other unique violation to the generic UniqueViolation wrapper, everything
else (including procedure-raised conditions) to ConnectorException with the
original error as cause. -/
def map_error : DBError → ManagerError
  | DBError.uniqueViolation c =>
      if c = queueingLockIdx then
        ManagerError.alreadyEnqueued (DBError.uniqueViolation c)
      else
        ManagerError.uniqueViolationWrapped (DBError.uniqueViolation c)
  | DBError.raised m => ManagerError.connectorException (DBError.raised m)

/-- Modelled from the spec: the `defer_job` procedure (section 4.2), not in
src/. Inserts a row with status todo and attempts 0, a `deferred` event, and a
`scheduled` event when `scheduled_at` lies in the future; fails with a unique
violation on the partial index when a todo row already holds the same non-null
queueing lock (test_defer_job_violate_queueing_lock). Returns the new id. -/
def defer_job (s : DB) (now : Int) (queue task_name : String)
    (lock queueing_lock : Option String) (args : String)
    (scheduled_at : Option Int) : Except DBError (DB × Nat) :=
  let dup := match queueing_lock with
    | none => false
    | some l => s.jobs.any fun j =>
        j.status = Status.todo ∧ j.queueing_lock = some l
  if dup then
    Except.error (DBError.uniqueViolation queueingLockIdx)
  else
    let j : Job :=
      { id := s.nextId, queue_name := queue, task_name := task_name,
        lock := lock, queueing_lock := queueing_lock, args := args,
        status := Status.todo, scheduled_at := scheduled_at, attempts := 0 }
    let schedEvents : List Event := match scheduled_at with
      | some t => if now < t then [⟨s.nextId, EventType.scheduled, now⟩] else []
      | none => []
    Except.ok
      ({ jobs := s.jobs ++ [j],
         events := s.events ++ [⟨s.nextId, EventType.deferred, now⟩] ++ schedEvents,
         nextId := s.nextId + 1 },
       s.nextId)

/-- Modelled from the spec: the eligibility predicate of `fetch_job`
(section 4.3): status todo, scheduled_at null or not after now, queue among
the requested ones (or no queue filter), and lock null or no other row with
the same lock in status doing. -/
def eligibleB (s : DB) (now : Int) (queues : Option (List String)) (j : Job) : Bool :=
  j.status = Status.todo
  && (match j.scheduled_at with
      | none => true
      | some t => t ≤ now)
  && (match queues with
      | none => true
      | some qs => j.queue_name ∈ qs)
  && (match j.lock with
      | none => true
      | some l => !(s.jobs.any fun k =>
          k.id ≠ j.id ∧ k.status = Status.doing ∧ k.lock = some l))

/-- Modelled from the spec: the `fetch_job` procedure (section 4.3), not in
src/. Atomically claims the oldest (least id) eligible job: sets it to doing,
appends a `started` event and returns the updated row; returns no row when no
job is eligible. -/
def fetch_job (s : DB) (now : Int) (queues : Option (List String)) :
    Option Job × DB :=
  match (s.jobs.filter (eligibleB s now queues)).argmin Job.id with
  | none => (none, s)
  | some j =>
      (some { j with status := Status.doing },
       { s with
          jobs := s.jobs.map fun k =>
            if k.id = j.id then { k with status := Status.doing } else k,
          events := s.events ++ [⟨j.id, EventType.started, now⟩] })

/-- Modelled from the spec: the event appended by the status-transition
trigger, following the lifecycle table of spec section 3 (todo→doing started,
doing→todo deferred_for_retry, doing→failed failed, doing→succeeded succeeded,
todo→failed cancelled; no event otherwise). -/
def transitionEvent : Status → Status → Option EventType
  | Status.todo, Status.doing => some EventType.started
  | Status.doing, Status.todo => some EventType.deferred_for_retry
  | Status.doing, Status.failed => some EventType.failed
  | Status.doing, Status.succeeded => some EventType.succeeded
  | Status.todo, Status.failed => some EventType.cancelled
  | _, _ => none

/-- Modelled from the spec: the `finish_job` procedure (section 4.4), not in
src/. Rejects an end status outside succeeded/failed; otherwise updates (or,
in the delete variant, deletes) the row whose id matches and whose status is
doing or todo, raising the not-found condition when there is none. Two points
are pinned by the repository's test test_finish_job_status_error rather than
by the spec's wording: a todo row is accepted in BOTH variants, and attempts
is incremented only when the prior status was doing. The appended event
follows the status-transition trigger. -/
def finish_job (s : DB) (now : Int) (job_id : Nat) (end_status : Status)
    (delete_job : Bool) : Except DBError DB :=
  if end_status ≠ Status.succeeded ∧ end_status ≠ Status.failed then
    Except.error (DBError.raised badEndStatusMsg)
  else
    match s.jobs.find? (fun j =>
        j.id = job_id ∧ (j.status = Status.doing ∨ j.status = Status.todo)) with
    | none => Except.error (DBError.raised (finishNotFoundMsg job_id))
    | some j =>
        if delete_job then
          Except.ok { s with
            jobs := s.jobs.filter fun k =>
              !(k.id = job_id ∧ (k.status = Status.doing ∨ k.status = Status.todo)) }
        else
          Except.ok { s with
            jobs := s.jobs.map fun k =>
              if k.id = job_id ∧ (k.status = Status.doing ∨ k.status = Status.todo) then
                { k with status := end_status,
                         attempts := if k.status = Status.doing then
                            k.attempts + 1 else k.attempts }
              else k,
            events := s.events ++ (match transitionEvent j.status end_status with
              | some t => [⟨job_id, t, now⟩]
              | none => []) }

/-- The row update performed by `retry_job` on the matching doing row: back to
todo, attempts incremented, scheduled_at set to the retry time. -/
def retryUpdate (job_id : Nat) (retry_at : Int) (k : Job) : Job :=
  if k.id = job_id ∧ k.status = Status.doing then
    { k with status := Status.todo, attempts := k.attempts + 1,
             scheduled_at := some retry_at }
  else k

/-- Modelled from the spec: the `retry_job` procedure (section 4.4), not in
src/. Requires the row to be in status doing; sets it back to todo, increments
attempts, sets scheduled_at to the retry time and appends a
`deferred_for_retry` event. -/
def retry_job (s : DB) (now : Int) (job_id : Nat) (retry_at : Int) :
    Except DBError DB :=
  match s.jobs.find? (fun j => j.id = job_id ∧ j.status = Status.doing) with
  | none => Except.error (DBError.raised (retryNotFoundMsg job_id))
  | some _ =>
      Except.ok { s with
        jobs := s.jobs.map (retryUpdate job_id retry_at),
        events := s.events ++ [⟨job_id, EventType.deferred_for_retry, now⟩] }

/-- Modelled from the spec: the stalled-job query (section 4.5), not in src/.
The spec's prose says "most recent started event", but the repository's test
test_get_stalled_jobs returns a doing job whose most recent started event is
fresh as soon as it has SOME started event older than nb_seconds (the query
joins jobs to their started events and filters on the event's age), so the
model quantifies existentially over started events. Optional filters on
queue and task name. -/
def get_stalled_jobs (s : DB) (now : Int) (nb_seconds : Int)
    (queue task_name : Option String) : List Job :=
  s.jobs.filter fun j =>
    j.status = Status.doing
    && (match queue with
        | none => true
        | some q => j.queue_name = q)
    && (match task_name with
        | none => true
        | some t => j.task_name = t)
    && (s.events.any fun e =>
        e.job_id = j.id ∧ e.type = EventType.started ∧ e.at_time < now - nb_seconds)

/-- The greatest element of a list of times, none for the empty list. -/
def maxTime : List Int → Option Int
  | [] => none
  | t :: ts => some (ts.foldl max t)

/-- The timestamps of a job's events. -/
def eventTimes (s : DB) (job_id : Nat) : List Int :=
  (s.events.filter fun e => e.job_id = job_id).map Event.at_time

/-- Follows the spec's words for claim C3 ("most recent started event"): the
greatest `at` among a job's started events. Used only to compare the spec's
reading with the modelled query. -/
def most_recent_started_at (s : DB) (job_id : Nat) : Option Int :=
  maxTime ((s.events.filter fun e =>
    e.job_id = job_id ∧ e.type = EventType.started).map Event.at_time)

/-- Modelled from the spec: the `delete_old_jobs` procedure (section 4.6), not
in src/. Deletes the jobs whose status is succeeded (also failed when
include_error), whose latest event timestamp is older than now minus nb_hours,
and which match the optional queue filter. -/
def delete_old_jobs (s : DB) (now : Int) (nb_hours : Int)
    (queue : Option String) (include_error : Bool) : DB :=
  { s with jobs := s.jobs.filter fun j =>
      !((j.status = Status.succeeded
          || (include_error && j.status = Status.failed))
        && (match queue with
            | none => true
            | some q => j.queue_name = q)
        && (match maxTime (eventTimes s j.id) with
            | none => false
            | some m => m < now - nb_hours * 3600)) }

/-- Modelled from the spec: the manager facade over `finish_job`, translating
the database error through the section-7 mapping. -/
def finish_job_manager (s : DB) (now : Int) (job_id : Nat) (end_status : Status)
    (delete_job : Bool) : Except ManagerError DB :=
  (finish_job s now job_id end_status delete_job).mapError map_error

/-- Modelled from the spec: the manager facade over `defer_job`, translating
the database error through the section-7 mapping. -/
def defer_job_manager (s : DB) (now : Int) (queue task_name : String)
    (lock queueing_lock : Option String) (args : String)
    (scheduled_at : Option Int) : Except ManagerError (DB × Nat) :=
  (defer_job s now queue task_name lock queueing_lock args scheduled_at).mapError
    map_error

end Procrastinate

namespace Cabbage

/-
The legacy client in src/cabbage/postgres.py. Its two pure-SQL operations,
launch_task and register_queue, act on the legacy `queues` and `tasks`
tables. The tables' schema is not among the staged files: queue names are
unique (register_queue relies on ON CONFLICT DO NOTHING over the name), ids
are serial.
-/

/-- A row of the legacy `queues` table. -/
structure QueueRow where
  id : Nat
  queue_name : String
deriving DecidableEq

/-- A row of the legacy `tasks` table, with the columns launch_task inserts
plus the status column launch_task leaves to its default. -/
structure TaskRow where
  id : Nat
  queue_id : Nat
  task_type : String
  targeted_object : String
  args : String
  status : String
deriving DecidableEq

/-- The legacy database state. -/
structure CabbageDB where
  queues : List QueueRow
  tasks : List TaskRow
  next_queue_id : Nat
  next_task_id : Nat
deriving DecidableEq

/-- The errors the legacy client raises. -/
inductive CabbageError where
  | queueNotFound (queue : String)
deriving DecidableEq

/-- launch_task (src/cabbage/postgres.py lines 14-30): INSERT INTO tasks
SELECT over the queues row with the given name, RETURNING id; when the SELECT
is empty no row is inserted, fetchone returns nothing and QueueNotFound is
raised before the commit. Modelled from the spec: the tasks table's status
default is not in src/ (the INSERT names no status column); per the spec's
data model, newly created rows have status todo — `deferred` is an event
type, not a status. Queue names are unique, so exactly one row is inserted
when the queue exists. -/
def launch_task (db : CabbageDB) (queue name lock : String) (kwargs : String) :
    Except CabbageError (CabbageDB × Nat) :=
  match db.queues.find? (fun q => q.queue_name = queue) with
  | none => Except.error (CabbageError.queueNotFound queue)
  | some q =>
      let t : TaskRow :=
        { id := db.next_task_id, queue_id := q.id, task_type := name,
          targeted_object := lock, args := kwargs, status := "todo" }
      Except.ok
        ({ db with tasks := db.tasks ++ [t], next_task_id := db.next_task_id + 1 },
         t.id)

/-- register_queue (src/cabbage/postgres.py lines 46-60): INSERT INTO queues
ON CONFLICT DO NOTHING RETURNING id; returns the new id on insert and None
when the name already exists (the conflicting insert returns no row). -/
def register_queue (db : CabbageDB) (queue : String) : CabbageDB × Option Nat :=
  if db.queues.any (fun q => q.queue_name = queue) then
    (db, none)
  else
    ({ db with queues := db.queues ++ [⟨db.next_queue_id, queue⟩],
               next_queue_id := db.next_queue_id + 1 },
     some db.next_queue_id)

end Cabbage

namespace Procrastinate

/-
Concrete database states used to exercise the operations on explicit inputs
(mirroring the scenarios of tests/integration/test_manager.py).
-/

/-- A job row with the fields the scenarios vary; the remaining columns take
fixed harmless values. -/
def mkJob (id : Nat) (queue : String) (st : Status) (sched : Option Int)
    (attempts : Nat) : Job :=
  { id := id, queue_name := queue, task_name := "task_1", lock := none,
    queueing_lock := none, args := "a", status := st, scheduled_at := sched,
    attempts := attempts }

/-- One deferred (todo) job, as after defer_job: the state of
test_finish_job_status_error before the first finish_job call. -/
def stTodo : DB :=
  { jobs := [mkJob 1 "queue_a" Status.todo none 0],
    events := [⟨1, EventType.deferred, 0⟩],
    nextId := 2 }

/-- One job already in a terminal status. -/
def stDone : DB :=
  { jobs := [mkJob 1 "queue_a" Status.failed none 0],
    events := [⟨1, EventType.deferred, 0⟩],
    nextId := 2 }

/-- One running (doing) job. -/
def stDoing : DB :=
  { jobs := [mkJob 1 "queue_a" Status.doing none 0],
    events := [⟨1, EventType.deferred, 0⟩, ⟨1, EventType.started, 0⟩],
    nextId := 2 }

/-- The test_get_stalled_jobs shape: a doing job whose started event from the
fetch is fresh (at -10) next to an injected old started event (at -1900),
queried at now = 0 with nb_seconds = 1800. -/
def stStalled : DB :=
  { jobs := [mkJob 1 "queue_a" Status.doing none 0],
    events := [⟨1, EventType.deferred, -1900⟩, ⟨1, EventType.started, -1900⟩,
               ⟨1, EventType.started, -10⟩],
    nextId := 2 }

/-- One todo job scheduled in the future (at 100, to be fetched at now = 0):
the scheduled-invisibility shape of test_get_job_no_result. -/
def stScheduled : DB :=
  { jobs := [mkJob 1 "queue_a" Status.todo (some 100) 0],
    events := [⟨1, EventType.deferred, 0⟩],
    nextId := 2 }

/-- One succeeded job whose events are all recent (latest at -10). -/
def stSucceededRecent : DB :=
  { jobs := [mkJob 1 "queue_a" Status.succeeded none 1],
    events := [⟨1, EventType.deferred, -100⟩, ⟨1, EventType.started, -50⟩,
               ⟨1, EventType.succeeded, -10⟩],
    nextId := 2 }

/-- One todo job holding queueing lock "ql". -/
def stQueueingLock : DB :=
  { jobs := [{ mkJob 1 "queue_a" Status.todo none 0 with
               queueing_lock := some "ql" }],
    events := [⟨1, EventType.deferred, 0⟩],
    nextId := 2 }

/-- Two deferred jobs on queue_a: job 1 scheduled at 100, job 2 unscheduled.
At now = 0 only job 2 is eligible; at now = 100 both are. -/
def rtS0 : DB :=
  { jobs := [mkJob 1 "queue_a" Status.todo (some 100) 0,
             mkJob 2 "queue_a" Status.todo none 0],
    events := [⟨1, EventType.deferred, 0⟩, ⟨2, EventType.deferred, 0⟩],
    nextId := 3 }

/-- rtS0 after fetching job 2 at now = 0. -/
def rtS1 : DB := (fetch_job rtS0 0 none).2

/-- rtS1 after retrying job 2 with retry_at = 0. -/
def rtS2 : DB := (retry_job rtS1 0 2 0).toOption.getD rtS1

/-- stDoing after retrying job 1 with retry_at = 0 (the test_retry_job
shape). -/
def rtW1 : DB := (retry_job stDoing 0 1 0).toOption.getD stDoing

end Procrastinate

namespace Cabbage

/-- A legacy state holding the single queue "queue_a". -/
def cdbOneQueue : CabbageDB :=
  { queues := [⟨1, "queue_a"⟩], tasks := [], next_queue_id := 2, next_task_id := 1 }

/-- The empty legacy state. -/
def cdbEmpty : CabbageDB :=
  { queues := [], tasks := [], next_queue_id := 1, next_task_id := 1 }

end Cabbage

namespace Procrastinate

theorem foldl_max_mem (t : Int) (ts : List Int) :
    ts.foldl max t = t ∨ ts.foldl max t ∈ ts := by
  induction ts generalizing t with
  | nil => left; rfl
  | cons a as ih =>
    simp only [List.foldl_cons]
    rcases ih (max t a) with h | h
    · rcases max_choice t a with hm | hm
      · left; rw [h, hm]
      · right; rw [h, hm]; exact List.mem_cons_self a as
    · right; exact List.mem_cons_of_mem a h

theorem le_foldl_max (t : Int) (ts : List Int) : t ≤ ts.foldl max t := by
  induction ts generalizing t with
  | nil => exact le_refl t
  | cons a as ih =>
    simpa using le_trans (le_max_left t a) (ih (max t a))

theorem mem_le_foldl_max (a t : Int) (ts : List Int) (h : a ∈ ts) :
    a ≤ ts.foldl max t := by
  induction ts generalizing t with
  | nil => cases h
  | cons b bs ih =>
    simp only [List.foldl_cons]
    rcases List.mem_cons.mp h with rfl | h
    · exact le_trans (le_max_right t a) (le_foldl_max _ _)
    · exact ih _ h

theorem maxTime_mem {l : List Int} {m : Int} (h : maxTime l = some m) : m ∈ l := by
  match l with
  | [] => cases h
  | t :: ts =>
    simp only [maxTime, Option.some.injEq] at h
    rcases foldl_max_mem t ts with h2 | h2
    · rw [← h, h2]; exact List.mem_cons_self t ts
    · rw [← h]; exact List.mem_cons_of_mem t h2

theorem le_maxTime {l : List Int} {a m : Int} (ha : a ∈ l)
    (h : maxTime l = some m) : a ≤ m := by
  match l with
  | [] => cases h
  | t :: ts =>
    simp only [maxTime, Option.some.injEq] at h
    rcases List.mem_cons.mp ha with rfl | ha
    · rw [← h]; exact le_foldl_max a ts
    · rw [← h]; exact mem_le_foldl_max a t ts ha

theorem maxTime_eq_none_iff (l : List Int) : maxTime l = none ↔ l = [] := by
  cases l <;> simp [maxTime]

theorem maxTime_eq_some_iff (l : List Int) (m : Int) :
    maxTime l = some m ↔ m ∈ l ∧ ∀ a ∈ l, a ≤ m := by
  constructor
  · intro h
    exact ⟨maxTime_mem h, fun a ha => le_maxTime ha h⟩
  · rintro ⟨hm, hub⟩
    cases hmx : maxTime l with
    | none =>
      rw [maxTime_eq_none_iff] at hmx
      subst hmx
      cases hm
    | some m2 =>
      exact congrArg some (le_antisymm (hub _ (maxTime_mem hmx)) (le_maxTime hm hmx))

/-- The eligibility test of `fetch_job`, spelt out as the spec's
conjunction. -/
theorem eligibleB_iff (s : DB) (now : Int) (queues : Option (List String))
    (j : Job) :
    eligibleB s now queues j = true ↔
      (j.status = Status.todo ∧
       (∀ t, j.scheduled_at = some t → t ≤ now) ∧
       (∀ qs, queues = some qs → j.queue_name ∈ qs) ∧
       (∀ l, j.lock = some l →
         ¬ ∃ k, k ∈ s.jobs ∧ k.id ≠ j.id ∧ k.status = Status.doing ∧
           k.lock = some l)) := by
  unfold eligibleB
  rcases hsch : j.scheduled_at with _ | t <;>
    rcases hq : queues with _ | qs <;>
    rcases hl : j.lock with _ | lv <;>
    simp [hsch, hq, hl, List.any_eq_true, and_assoc]

/-- Claim C1, counterexample: finishing the todo job of stTodo without the
delete variant does not raise; it transitions the row to failed. The claim
says a todo job is accepted only in the delete variant. -/
theorem C1_finish_todo_no_delete_succeeds :
    (finish_job_manager stTodo 0 1 Status.failed false).isOk = true ∧
    (finish_job stTodo 0 1 Status.failed false).toOption.map
      (fun s => s.jobs.map Job.status) = some [Status.failed] := by
  decide

/-- Claim C1 (amended): finish_job raises the condition
`Job with id <id> was not found or not in "doing" or "todo" status` (surfaced
as ConnectorException wrapping it) exactly for job ids with no row in status
doing OR todo, in both delete variants; a todo job is accepted in both
variants. -/
theorem C1_finish_job_not_found_raises (s : DB) (now : Int) (job_id : Nat)
    (end_status : Status) (delete_job : Bool)
    (hes : end_status = Status.succeeded ∨ end_status = Status.failed)
    (h : ∀ j ∈ s.jobs, j.id = job_id →
      j.status ≠ Status.doing ∧ j.status ≠ Status.todo) :
    finish_job_manager s now job_id end_status delete_job =
      Except.error (ManagerError.connectorException
        (DBError.raised (finishNotFoundMsg job_id))) := by
  unfold finish_job_manager finish_job
  have hne : ¬(end_status ≠ Status.succeeded ∧ end_status ≠ Status.failed) := by
    rcases hes with rfl | rfl <;> simp
  rw [if_neg hne]
  have hfind : s.jobs.find? (fun j =>
      j.id = job_id ∧ (j.status = Status.doing ∨ j.status = Status.todo)) = none := by
    apply List.find?_eq_none.mpr
    intro j hj
    simp only [decide_eq_true_eq, not_and]
    intro hid hst
    obtain ⟨h1, h2⟩ := h j hj hid
    rcases hst with hst | hst
    · exact h1 hst
    · exact h2 hst
  rw [hfind]
  rfl

/-- Claim C1, witness: on a job already in terminal status the condition is
raised, in the delete variant too. -/
theorem C1_witness :
    finish_job_manager stDone 0 1 Status.failed true =
      Except.error (ManagerError.connectorException
        (DBError.raised (finishNotFoundMsg 1))) :=
  C1_finish_job_not_found_raises stDone 0 1 Status.failed true (Or.inr rfl)
    (by decide)

/-- Claim C2, counterexample: finishing the todo job of stTodo as failed
leaves attempts at 0 (the claim says attempts is always incremented by one)
and appends a `cancelled` event, not one matching the end status. -/
theorem C2_finish_todo_attempts_unchanged :
    (finish_job stTodo 0 1 Status.failed false).toOption.map
        (fun s => (s.jobs.map (fun j => (j.status, j.attempts)),
                   s.events.map Event.type)) =
      some ([(Status.failed, 0)],
            [EventType.deferred, EventType.cancelled]) := by
  decide

/-- Claim C2 (amended): a job accepted by finish_job (status doing or todo)
with end status succeeded or failed gets its status set to the end status;
attempts is incremented by exactly one when the prior status was doing and
left unchanged otherwise; exactly one event whose type matches the end status
is inserted when the prior status was doing, while a todo job finished as
failed records a single `cancelled` event and one finished as succeeded
records no event. -/
theorem C2_finish_job_accepted_updates (s : DB) (now : Int) (job_id : Nat)
    (end_status : Status) (j : Job)
    (hes : end_status = Status.succeeded ∨ end_status = Status.failed)
    (hfind : s.jobs.find? (fun k =>
        k.id = job_id ∧ (k.status = Status.doing ∨ k.status = Status.todo)) =
      some j) :
    ∃ s1, finish_job s now job_id end_status false = Except.ok s1 ∧
      (∃ k, k ∈ s1.jobs ∧ k.id = job_id ∧ k.status = end_status ∧
        k.attempts =
          (if j.status = Status.doing then j.attempts + 1 else j.attempts)) ∧
      (j.status = Status.doing →
        ∃ t, s1.events = s.events ++ [⟨job_id, t, now⟩] ∧
          ((end_status = Status.succeeded ∧ t = EventType.succeeded) ∨
           (end_status = Status.failed ∧ t = EventType.failed))) ∧
      (j.status = Status.todo → end_status = Status.failed →
        s1.events = s.events ++ [⟨job_id, EventType.cancelled, now⟩]) ∧
      (j.status = Status.todo → end_status = Status.succeeded →
        s1.events = s.events) := by
  have hmem : j ∈ s.jobs := List.mem_of_find?_eq_some hfind
  have hpred := List.find?_some hfind
  simp only [decide_eq_true_eq] at hpred
  obtain ⟨hid, hst⟩ := hpred
  have hne : ¬(end_status ≠ Status.succeeded ∧ end_status ≠ Status.failed) := by
    rcases hes with rfl | rfl <;> simp
  unfold finish_job
  rw [if_neg hne, hfind]
  simp only [Bool.false_eq_true, if_false]
  refine ⟨_, rfl, ?_, ?_, ?_, ?_⟩
  · have hkmem := List.mem_map_of_mem (fun k =>
      if k.id = job_id ∧ (k.status = Status.doing ∨ k.status = Status.todo) then
        { k with status := end_status,
                 attempts := if k.status = Status.doing then k.attempts + 1
                   else k.attempts }
      else k) hmem
    beta_reduce at hkmem
    rw [if_pos ⟨hid, hst⟩] at hkmem
    exact ⟨_, hkmem, hid, rfl, rfl⟩
  · intro hdoing
    rcases hes with rfl | rfl
    · exact ⟨EventType.succeeded, by simp [hdoing, transitionEvent],
        Or.inl ⟨rfl, rfl⟩⟩
    · exact ⟨EventType.failed, by simp [hdoing, transitionEvent],
        Or.inr ⟨rfl, rfl⟩⟩
  · intro htodo hesf
    simp [htodo, hesf, transitionEvent]
  · intro htodo hess
    simp [htodo, hess, transitionEvent]

/-- Claim C2, witness: finishing the doing job of stDoing as succeeded. -/
theorem C2_witness :
    ∃ s1, finish_job stDoing 0 1 Status.succeeded false = Except.ok s1 ∧
      (∃ k, k ∈ s1.jobs ∧ k.id = 1 ∧ k.status = Status.succeeded ∧
        k.attempts =
          (if (mkJob 1 "queue_a" Status.doing none 0).status = Status.doing then
            (mkJob 1 "queue_a" Status.doing none 0).attempts + 1
          else (mkJob 1 "queue_a" Status.doing none 0).attempts)) ∧
      ((mkJob 1 "queue_a" Status.doing none 0).status = Status.doing →
        ∃ t, s1.events = stDoing.events ++ [⟨1, t, 0⟩] ∧
          ((Status.succeeded = Status.succeeded ∧ t = EventType.succeeded) ∨
           (Status.succeeded = Status.failed ∧ t = EventType.failed))) ∧
      ((mkJob 1 "queue_a" Status.doing none 0).status = Status.todo →
        Status.succeeded = Status.failed →
        s1.events = stDoing.events ++ [⟨1, EventType.cancelled, 0⟩]) ∧
      ((mkJob 1 "queue_a" Status.doing none 0).status = Status.todo →
        Status.succeeded = Status.succeeded →
        s1.events = stDoing.events) :=
  C2_finish_job_accepted_updates stDoing 0 1 Status.succeeded
    (mkJob 1 "queue_a" Status.doing none 0) (Or.inl rfl) (by decide)

/-- Claim C7: finish_job with an end status outside succeeded/failed raises
`End status should be either "succeeded" or "failed"`, surfaced as
ConnectorException wrapping the raised condition; no updated state is
produced, so the job row is untouched. -/
theorem C7_finish_job_bad_end_status (s : DB) (now : Int) (job_id : Nat)
    (end_status : Status) (delete_job : Bool)
    (h1 : end_status ≠ Status.succeeded) (h2 : end_status ≠ Status.failed) :
    finish_job_manager s now job_id end_status delete_job =
      Except.error (ManagerError.connectorException
        (DBError.raised badEndStatusMsg)) := by
  unfold finish_job_manager finish_job
  rw [if_pos ⟨h1, h2⟩]
  rfl

/-- Claim C7, witness: finishing with end status todo (the test's S7 shape). -/
theorem C7_witness :
    finish_job_manager stTodo 0 1 Status.todo false =
      Except.error (ManagerError.connectorException
        (DBError.raised badEndStatusMsg)) :=
  C7_finish_job_bad_end_status stTodo 0 1 Status.todo false (by decide) (by decide)

/-- Claim C3, counterexample: in stStalled the doing job's most recent started
event (at -10) is NOT older than nb_seconds = 1800 at now = 0, yet the job is
returned, because an older started event (at -1900) crosses the threshold.
The claim says such a job is never returned. -/
theorem C3_stalled_despite_recent_start :
    (get_stalled_jobs stStalled 0 1800 none none).map Job.id = [1] ∧
    most_recent_started_at stStalled 1 = some (-10) ∧
    ¬ ((-10 : Int) < 0 - 1800) := by
  decide

/-- Claim C3 (amended): get_stalled_jobs returns exactly the jobs in status
doing that match the optional queue and task-name filters and have at least
one started event older than nb_seconds; in particular a doing job whose most
recent started event is newer than nb_seconds is still returned when it also
has an older started event. -/
theorem C3_get_stalled_jobs_spec (s : DB) (now nb_seconds : Int)
    (queue task_name : Option String) (j : Job) :
    j ∈ get_stalled_jobs s now nb_seconds queue task_name ↔
      (j ∈ s.jobs ∧ j.status = Status.doing ∧
       (∀ q, queue = some q → j.queue_name = q) ∧
       (∀ t, task_name = some t → j.task_name = t) ∧
       ∃ e, e ∈ s.events ∧ e.job_id = j.id ∧ e.type = EventType.started ∧
         e.at_time < now - nb_seconds) := by
  unfold get_stalled_jobs
  rcases hq : queue with _ | q <;> rcases ht : task_name with _ | t <;>
    simp [List.mem_filter, List.any_eq_true, and_assoc]

/-- Claim C4: a job returned by fetch_job satisfies the full eligibility
predicate in the pre-state (status todo, scheduled_at null or not after now,
queue among the requested ones or no filter, lock null or no other doing job
with the same lock), and when every job violates some condition fetch_job
returns no job. -/
theorem C4_fetch_job_eligibility (s : DB) (now : Int)
    (queues : Option (List String)) :
    (∀ j s1, fetch_job s now queues = (some j, s1) →
      ∃ j0, j0 ∈ s.jobs ∧ j0.id = j.id ∧
        j0.status = Status.todo ∧
        (∀ t, j0.scheduled_at = some t → t ≤ now) ∧
        (∀ qs, queues = some qs → j0.queue_name ∈ qs) ∧
        (∀ l, j0.lock = some l →
          ¬ ∃ k, k ∈ s.jobs ∧ k.id ≠ j0.id ∧ k.status = Status.doing ∧
            k.lock = some l)) ∧
    ((∀ j, j ∈ s.jobs →
        ¬ (j.status = Status.todo ∧
           (∀ t, j.scheduled_at = some t → t ≤ now) ∧
           (∀ qs, queues = some qs → j.queue_name ∈ qs) ∧
           (∀ l, j.lock = some l →
             ¬ ∃ k, k ∈ s.jobs ∧ k.id ≠ j.id ∧ k.status = Status.doing ∧
               k.lock = some l))) →
      (fetch_job s now queues).1 = none) := by
  constructor
  · intro j s1 hfetch
    unfold fetch_job at hfetch
    cases harg : (s.jobs.filter (eligibleB s now queues)).argmin Job.id with
    | none =>
      rw [harg] at hfetch
      cases hfetch
    | some j0 =>
      rw [harg] at hfetch
      have hj : ({ j0 with status := Status.doing } : Job) = j := by
        have := congrArg Prod.fst hfetch
        simpa using this
      have hmem : j0 ∈ s.jobs.filter (eligibleB s now queues) :=
        List.argmin_mem harg
      obtain ⟨hjobs, helig⟩ := List.mem_filter.mp hmem
      obtain ⟨h1, h2, h3, h4⟩ := (eligibleB_iff s now queues j0).mp helig
      exact ⟨j0, hjobs, by rw [← hj], h1, h2, h3, h4⟩
  · intro hall
    unfold fetch_job
    cases harg : (s.jobs.filter (eligibleB s now queues)).argmin Job.id with
    | none => rfl
    | some j0 =>
      exfalso
      have hmem : j0 ∈ s.jobs.filter (eligibleB s now queues) :=
        List.argmin_mem harg
      obtain ⟨hjobs, helig⟩ := List.mem_filter.mp hmem
      exact hall j0 hjobs ((eligibleB_iff s now queues j0).mp helig)

/-- Claim C4, witness: the scheduled-in-the-future candidate of stScheduled is
not fetched. -/
theorem C4_witness :
    (fetch_job stScheduled 0 (some ["queue_a"])).1 = none :=
  (C4_fetch_job_eligibility stScheduled 0 (some ["queue_a"])).2 (by
    intro j hj hprops
    simp only [stScheduled, List.mem_singleton] at hj
    subst hj
    have h100 := hprops.2.1 100 rfl
    omega)

/-- Claim C5: delete_old_jobs removes exactly the jobs whose status is
succeeded (also failed when include_error, never todo or doing), that match
the queue filter, and whose latest event timestamp is older than now minus
nb_hours; a job with any event at or after that horizon (in particular a
recent terminal event) is never deleted, whatever its older events are. -/
theorem C5_delete_old_jobs_spec (s : DB) (now nb_hours : Int)
    (queue : Option String) (include_error : Bool) (j : Job) :
    (j ∈ (delete_old_jobs s now nb_hours queue include_error).jobs ↔
      (j ∈ s.jobs ∧
       ¬ ((j.status = Status.succeeded ∨
            (include_error = true ∧ j.status = Status.failed)) ∧
          (∀ q, queue = some q → j.queue_name = q) ∧
          (∃ m, m ∈ eventTimes s j.id ∧ (∀ a ∈ eventTimes s j.id, a ≤ m) ∧
            m < now - nb_hours * 3600)))) ∧
    (j ∈ s.jobs →
      (∃ e, e ∈ s.events ∧ e.job_id = j.id ∧ now - nb_hours * 3600 ≤ e.at_time) →
      j ∈ (delete_old_jobs s now nb_hours queue include_error).jobs) := by
  have hcond : ∀ jj : Job,
      (((jj.status = Status.succeeded
          || (include_error && jj.status = Status.failed))
        && (match queue with
            | none => true
            | some q => jj.queue_name = q)
        && (match maxTime (eventTimes s jj.id) with
            | none => false
            | some m => decide (m < now - nb_hours * 3600))) = true) ↔
      ((jj.status = Status.succeeded ∨
          (include_error = true ∧ jj.status = Status.failed)) ∧
       (∀ q, queue = some q → jj.queue_name = q) ∧
       (∃ m, m ∈ eventTimes s jj.id ∧ (∀ a ∈ eventTimes s jj.id, a ≤ m) ∧
         m < now - nb_hours * 3600)) := by
    intro jj
    constructor
    · intro hb
      simp only [Bool.and_eq_true, Bool.or_eq_true, decide_eq_true_eq] at hb
      obtain ⟨⟨hstat, hqm⟩, hmax⟩ := hb
      refine ⟨?_, ?_, ?_⟩
      · rcases hstat with h | h
        · exact Or.inl h
        · exact Or.inr h
      · intro q hq
        rw [hq] at hqm
        exact of_decide_eq_true hqm
      · cases hmx : maxTime (eventTimes s jj.id) with
        | none => rw [hmx] at hmax; cases hmax
        | some m =>
          rw [hmx] at hmax
          obtain ⟨hm, hub⟩ := (maxTime_eq_some_iff _ _).mp hmx
          exact ⟨m, hm, hub, of_decide_eq_true hmax⟩
    · rintro ⟨hstat, hqm, m, hm, hub, hlt⟩
      simp only [Bool.and_eq_true, Bool.or_eq_true, decide_eq_true_eq]
      refine ⟨⟨?_, ?_⟩, ?_⟩
      · rcases hstat with h | ⟨h1, h2⟩
        · exact Or.inl h
        · exact Or.inr ⟨h1, h2⟩
      · rcases hq : queue with _ | q
        · rfl
        · exact decide_eq_true (hqm q hq)
      · have hmx : maxTime (eventTimes s jj.id) = some m :=
          (maxTime_eq_some_iff _ _).mpr ⟨hm, hub⟩
        rw [hmx]
        exact decide_eq_true hlt
  have hsurv : j ∈ (delete_old_jobs s now nb_hours queue include_error).jobs ↔
      (j ∈ s.jobs ∧
       ¬ ((j.status = Status.succeeded ∨
            (include_error = true ∧ j.status = Status.failed)) ∧
          (∀ q, queue = some q → j.queue_name = q) ∧
          (∃ m, m ∈ eventTimes s j.id ∧ (∀ a ∈ eventTimes s j.id, a ≤ m) ∧
            m < now - nb_hours * 3600))) := by
    unfold delete_old_jobs
    rw [List.mem_filter]
    constructor
    · rintro ⟨hjobs, hneg⟩
      refine ⟨hjobs, fun hp => ?_⟩
      have := (hcond j).mpr hp
      rw [this] at hneg
      cases hneg
    · rintro ⟨hjobs, hnp⟩
      refine ⟨hjobs, ?_⟩
      rw [Bool.not_eq_true']
      exact Bool.eq_false_iff.mpr (fun hb => hnp ((hcond j).mp hb))
  constructor
  · exact hsurv
  · rintro hjobs ⟨e, he, heid, hrecent⟩
    refine hsurv.mpr ⟨hjobs, ?_⟩
    rintro ⟨-, -, m, hm, hub, hlt⟩
    have hemem : e.at_time ∈ eventTimes s j.id := by
      unfold eventTimes
      refine List.mem_map_of_mem _ (List.mem_filter.mpr ⟨he, ?_⟩)
      simp [heid]
    have := hub _ hemem
    omega

/-- Claim C5, witness: the succeeded job of stSucceededRecent has its latest
event at -10, newer than the horizon 0 - 2 * 3600, so delete_old_jobs keeps
it. -/
theorem C5_witness :
    mkJob 1 "queue_a" Status.succeeded none 1 ∈
      (delete_old_jobs stSucceededRecent 0 2 none false).jobs :=
  (C5_delete_old_jobs_spec stSucceededRecent 0 2 none false
      (mkJob 1 "queue_a" Status.succeeded none 1)).2 (by decide) (by decide)

theorem retryUpdate_id (job_id : Nat) (retry_at : Int) (k : Job) :
    (retryUpdate job_id retry_at k).id = k.id := by
  unfold retryUpdate
  by_cases hc : k.id = job_id ∧ k.status = Status.doing <;> simp [hc]

/-- Claim C6: deferring a job whose non-null queueing lock is already held by
an existing todo job fails with the unique violation on the partial index
procrastinate_jobs_queueing_lock_idx, surfaced as AlreadyEnqueued whose cause
is that UniqueViolation; a defer with a fresh queueing lock succeeds. -/
theorem C6_defer_queueing_lock (s : DB) (now : Int) (queue task_name : String)
    (lock : Option String) (l : String) (args : String)
    (scheduled_at : Option Int) :
    ((∃ j, j ∈ s.jobs ∧ j.status = Status.todo ∧ j.queueing_lock = some l) →
      defer_job_manager s now queue task_name lock (some l) args scheduled_at =
        Except.error (ManagerError.alreadyEnqueued
          (DBError.uniqueViolation queueingLockIdx))) ∧
    ((∀ j ∈ s.jobs, ¬(j.status = Status.todo ∧ j.queueing_lock = some l)) →
      ∃ s1 jid, defer_job_manager s now queue task_name lock (some l) args
          scheduled_at = Except.ok (s1, jid)) := by
  constructor
  · rintro ⟨j, hj, hst, hql⟩
    have hdup : (s.jobs.any fun k =>
        k.status = Status.todo ∧ k.queueing_lock = some l) = true :=
      List.any_eq_true.mpr ⟨j, hj, by simp [hst, hql]⟩
    unfold defer_job_manager defer_job
    simp only [hdup, if_true, Except.mapError, map_error, queueingLockIdx,
      if_pos rfl]
  · intro hfresh
    have hdup : (s.jobs.any fun k =>
        k.status = Status.todo ∧ k.queueing_lock = some l) = false := by
      rw [Bool.eq_false_iff]
      intro hany
      obtain ⟨k, hk, hkp⟩ := List.any_eq_true.mp hany
      exact hfresh k hk (of_decide_eq_true hkp)
    unfold defer_job_manager defer_job
    simp only [hdup, Bool.false_eq_true, if_false, Except.mapError]
    exact ⟨_, _, rfl⟩

/-- Claim C6, witness: deferring onto the held queueing lock of
stQueueingLock raises AlreadyEnqueued. -/
theorem C6_witness :
    defer_job_manager stQueueingLock 0 "queue_a" "task_2" none (some "ql") "a"
        none =
      Except.error (ManagerError.alreadyEnqueued
        (DBError.uniqueViolation queueingLockIdx)) :=
  (C6_defer_queueing_lock stQueueingLock 0 "queue_a" "task_2" none "ql" "a"
      none).1 (by decide)

/-- Claim C8, counterexample: in rtS0, fetch_job claims job 2 (job 1 is still
scheduled in the future); job 2 is retried with retry_at = 0, which is not in
the future of the second fetch at now = 100; yet that subsequent fetch_job
returns job 1 (by then past its scheduled time and older), not a job with the
retried id 2. -/
theorem C8_refetch_different_job :
    (fetch_job rtS0 0 none).1.map Job.id = some 2 ∧
    retry_job rtS1 0 2 0 = Except.ok rtS2 ∧
    (0 : Int) ≤ 100 ∧
    (fetch_job rtS2 100 none).1.map Job.id = some 1 ∧
    ¬ ((fetch_job rtS2 100 none).1.map Job.id = some 2) := by
  decide

/-- Claim C8 (amended): after a doing job is retried with a retry time not in
the future, the job is re-fetchable: it satisfies the eligibility predicate
again and a subsequent fetch_job over queues accepting it returns a job with
the same id and attempts equal to the previously fetched attempts plus one,
provided the job's id is unique, it is the strictly oldest eligible job and no
other doing job shares its lock; without the oldest-eligible proviso the
subsequent fetch may return a different, older job. -/
theorem C8_retry_then_fetch (s s1 : DB) (now1 now2 retry_at : Int)
    (job_id : Nat) (queues : Option (List String)) (j : Job)
    (hfind : s.jobs.find? (fun k => k.id = job_id ∧ k.status = Status.doing) =
      some j)
    (hretry : retry_job s now1 job_id retry_at = Except.ok s1)
    (hrat : retry_at ≤ now2)
    (hqueue : ∀ qs, queues = some qs → j.queue_name ∈ qs)
    (huniq : ∀ k ∈ s.jobs, k.id = job_id → k = j)
    (hlock : ∀ lv, j.lock = some lv ->
      ∀ k ∈ s1.jobs, k.id ≠ job_id ->
        ¬ (k.status = Status.doing ∧ k.lock = some lv))
    (hmin : ∀ k ∈ s1.jobs, eligibleB s1 now2 queues k = true ->
      k.id ≠ job_id → job_id < k.id) :
    ∃ j2 s2, fetch_job s1 now2 queues = (some j2, s2) ∧
      j2.id = job_id ∧ j2.attempts = j.attempts + 1 := by
  have hmem : j ∈ s.jobs := List.mem_of_find?_eq_some hfind
  have hpred := List.find?_some hfind
  simp only [decide_eq_true_eq] at hpred
  obtain ⟨hid, hdoing⟩ := hpred
  unfold retry_job at hretry
  rw [hfind] at hretry
  injection hretry with hs1
  subst hs1
  set jr : Job := { j with
                    status := Status.todo,
                    attempts := j.attempts + 1,
                    scheduled_at := some retry_at } with hjr
  have hfj : retryUpdate job_id retry_at j = jr := by
    unfold retryUpdate
    rw [if_pos (And.intro hid hdoing)]
  have hjrmem : jr ∈ (s.jobs.map (retryUpdate job_id retry_at)) := by
    rw [← hfj]
    exact List.mem_map_of_mem _ hmem
  have huniq1 : ∀ k1 ∈ s.jobs.map (retryUpdate job_id retry_at),
      k1.id = job_id → k1 = jr := by
    intro k1 hk1 hk1id
    obtain ⟨k0, hk0, hfk0⟩ := List.mem_map.mp hk1
    have hk0id : k0.id = job_id := by
      rw [← hfk0, retryUpdate_id] at hk1id
      exact hk1id
    have hk0j : k0 = j := huniq k0 hk0 hk0id
    subst hk0j
    rw [← hfk0, hfj]
  have hjrid : jr.id = job_id := hid
  have helig : eligibleB { s with
      jobs := s.jobs.map (retryUpdate job_id retry_at),
      events := s.events ++ [⟨job_id, EventType.deferred_for_retry, now1⟩] }
      now2 queues jr = true := by
    apply (eligibleB_iff _ now2 queues jr).mpr
    refine ⟨rfl, ?_, ?_, ?_⟩
    · intro t ht
      have : some retry_at = some t := ht
      cases this
      exact hrat
    · intro qs hqs
      exact hqueue qs hqs
    · intro lv hlv hex
      obtain ⟨k, hk, hkid, hkdoing, hklock⟩ := hex
      have hkid2 : k.id ≠ job_id := by
        rw [← hjrid]
        exact hkid
      exact hlock lv hlv k hk hkid2 (And.intro hkdoing hklock)
  have hfil : jr ∈ ((s.jobs.map (retryUpdate job_id retry_at)).filter
      (eligibleB { s with
        jobs := s.jobs.map (retryUpdate job_id retry_at),
        events := s.events ++ [⟨job_id, EventType.deferred_for_retry, now1⟩] }
        now2 queues)) :=
    List.mem_filter.mpr (And.intro hjrmem helig)
  cases harg : ((s.jobs.map (retryUpdate job_id retry_at)).filter
      (eligibleB { s with
        jobs := s.jobs.map (retryUpdate job_id retry_at),
        events := s.events ++ [⟨job_id, EventType.deferred_for_retry, now1⟩] }
        now2 queues)).argmin Job.id with
  | none =>
    rw [List.argmin_eq_none] at harg
    rw [harg] at hfil
    cases hfil
  | some m =>
    have hmmem : m ∈ ((s.jobs.map (retryUpdate job_id retry_at)).filter
        (eligibleB { s with
          jobs := s.jobs.map (retryUpdate job_id retry_at),
          events := s.events ++ [⟨job_id, EventType.deferred_for_retry, now1⟩] }
          now2 queues)) := List.argmin_mem harg
    obtain ⟨hmjobs, hmelig⟩ := List.mem_filter.mp hmmem
    have hmle : m.id ≤ jr.id := List.le_of_mem_argmin hfil harg
    have hmid : m.id = job_id := by
      by_contra hne
      have h1 := hmin m hmjobs hmelig hne
      rw [hjrid] at hmle
      omega
    have hm : m = jr := huniq1 m hmjobs hmid
    subst hm
    refine ⟨{ jr with status := Status.doing },
      { jobs := (s.jobs.map (retryUpdate job_id retry_at)).map
          (fun k => if k.id = jr.id then { k with status := Status.doing } else k),
        events := (s.events ++ [⟨job_id, EventType.deferred_for_retry, now1⟩]) ++
          [⟨jr.id, EventType.started, now2⟩],
        nextId := s.nextId }, ?_, hjrid, rfl⟩
    unfold fetch_job
    rw [harg]

/-- Claim C8, witness: the single-job test_retry_job scenario: job 1 of
stDoing is retried into rtW1 and the next fetch returns id 1 with attempts
0 + 1. -/
theorem C8_witness :
    ∃ j2 s2, fetch_job rtW1 0 none = (some j2, s2) ∧
      j2.id = 1 ∧
      j2.attempts = (mkJob 1 "queue_a" Status.doing none 0).attempts + 1 :=
  C8_retry_then_fetch stDoing rtW1 0 0 0 1 none
    (mkJob 1 "queue_a" Status.doing none 0)
    (by decide) (by decide) (by decide)
    (fun qs hqs => nomatch hqs)
    (by decide)
    (fun lv hlv => nomatch hlv)
    (by decide)

end Procrastinate

namespace Cabbage

/-- Claim C9, counterexample: launching a task on the existing queue of
cdbOneQueue inserts a row whose status is "todo", not "deferred" (the spec's
status enumeration has no deferred member; deferred is an event type). -/
theorem C9_launch_task_status_todo :
    Cabbage.launch_task cdbOneQueue "queue_a" "t" "o" "a" =
      Except.ok ({ queues := [⟨1, "queue_a"⟩],
                   tasks := [⟨1, 1, "t", "o", "a", "todo"⟩],
                   next_queue_id := 2, next_task_id := 2 }, 1) ∧
    ¬ ("todo" = "deferred") := by
  decide

/-- Claim C9 (amended): launch_task on a queue name with no queues row raises
QueueNotFound and inserts no task row; on an existing queue it inserts exactly
one task row (status "todo", pointing at that queue) and returns the new
row's id. -/
theorem C9_launch_task_spec (db : CabbageDB) (queue name lock kwargs : String) :
    ((∀ q ∈ db.queues, q.queue_name ≠ queue) →
      Cabbage.launch_task db queue name lock kwargs =
        Except.error (CabbageError.queueNotFound queue)) ∧
    (∀ q, db.queues.find? (fun r => r.queue_name = queue) = some q →
      ∃ db2 tid, Cabbage.launch_task db queue name lock kwargs =
          Except.ok (db2, tid) ∧
        ∃ t : TaskRow, db2.tasks = db.tasks ++ [t] ∧ t.id = tid ∧
          t.status = "todo" ∧ t.queue_id = q.id) := by
  constructor
  · intro hnone
    have hfind : db.queues.find? (fun r => r.queue_name = queue) = none := by
      apply List.find?_eq_none.mpr
      intro q hq
      simp only [decide_eq_true_eq]
      exact hnone q hq
    unfold launch_task
    rw [hfind]
  · intro q hfind
    unfold launch_task
    rw [hfind]
    exact ⟨_, _, rfl, _, rfl, rfl, rfl, rfl⟩

/-- Claim C9, witness: the missing-queue branch on the empty state and the
existing-queue branch on cdbOneQueue. -/
theorem C9_witness :
    Cabbage.launch_task cdbEmpty "queue_a" "t" "o" "a" =
      Except.error (CabbageError.queueNotFound "queue_a") :=
  (C9_launch_task_spec cdbEmpty "queue_a" "t" "o" "a").1 (by decide)

/-- Claim C10: register_queue is idempotent: on a fresh name it appends
exactly one queues row with that name and returns its id, and a repeated call
with the same name leaves the state unchanged and returns none (never
raising); more generally any call whose name is already present returns the
state unchanged with none. -/
theorem C10_register_queue_idempotent (db : CabbageDB) (queue : String)
    (hfresh : ∀ q ∈ db.queues, q.queue_name ≠ queue) :
    (∃ qrow : QueueRow,
      (register_queue db queue).1.queues = db.queues ++ [qrow] ∧
      qrow.queue_name = queue ∧
      (register_queue db queue).2 = some qrow.id) ∧
    register_queue (register_queue db queue).1 queue =
      ((register_queue db queue).1, none) := by
  have hany : (db.queues.any fun q => q.queue_name = queue) = false := by
    rw [Bool.eq_false_iff]
    intro h
    obtain ⟨q, hq, hqe⟩ := List.any_eq_true.mp h
    exact hfresh q hq (of_decide_eq_true hqe)
  have h1 : register_queue db queue =
      ({ db with queues := db.queues ++ [⟨db.next_queue_id, queue⟩],
                 next_queue_id := db.next_queue_id + 1 },
       some db.next_queue_id) := by
    unfold register_queue
    rw [hany]
    rfl
  constructor
  · exact ⟨⟨db.next_queue_id, queue⟩, by rw [h1], rfl, by rw [h1]⟩
  · rw [h1]
    have hany2 : (((db.queues ++ [(⟨db.next_queue_id, queue⟩ : QueueRow)]).any
        fun q => q.queue_name = queue)) = true := by
      apply List.any_eq_true.mpr
      refine ⟨⟨db.next_queue_id, queue⟩, ?_, by simp⟩
      simp
    unfold register_queue
    rw [hany2]
    rfl

/-- Claim C10, witness: registering "q" twice on the empty state. -/
theorem C10_witness :
    (∃ qrow : QueueRow,
      (register_queue cdbEmpty "q").1.queues = cdbEmpty.queues ++ [qrow] ∧
      qrow.queue_name = "q" ∧
      (register_queue cdbEmpty "q").2 = some qrow.id) ∧
    register_queue (register_queue cdbEmpty "q").1 "q" =
      ((register_queue cdbEmpty "q").1, none) :=
  C10_register_queue_idempotent cdbEmpty "q" (by decide)

end Cabbage
